import Mathlib

/-!
Verification of the signature-introspection core of the pypubsub fork
(src/pubsub/core/callables.py): a shallow embedding of getModule, getID,
getRawFunction, ListenerMismatchError, CallArgsInfo and getArgs, together
with proofs and refutations of the specified properties.
-/

/--
Default values observed by the extractor.  `noDefault` stands for an
instance of the NO_DEFAULT placeholder class; `autoTopic` is the unique
AUTO_TOPIC marker string; `other n` is any other runtime value.  Python
equality `value == AUTO_TOPIC` holds exactly for `autoTopic` (a NO_DEFAULT
instance is never equal to a string, and the marker string is by design
never used as an ordinary default).
-/
inductive Value where
  | noDefault : Value
  | autoTopic : Value
  | other : Nat → Value
deriving DecidableEq, Repr

/-- Runtime errors that the extractor can raise (uncaught in the source). -/
inductive PyErr where
  | keyError : String → PyErr
  | indexError : PyErr
deriving DecidableEq, Repr

/--
The tuple returned by inspect.getfullargspec, in source order
(line 153 of callables.py): ordinary positional-or-keyword names,
the catch-all positional name, the catch-all keyword name, the trailing
defaults of the ordinary parameters (None when there are none),
the keyword-only names and their defaults mapping (None when empty).
Annotations are dropped since the core never reads them.
-/
structure FullArgSpec where
  args : List String
  varargs : Option String
  varkw : Option String
  defaults : Option (List Value)
  kwonlyargs : List String
  kwonlydefaults : Option (List (String × Value))
deriving DecidableEq, Repr

/--
Python list indexing `xs[i]` for an int index: a negative index counts
from the end; out of range raises IndexError.
-/
def pyGet (xs : List Value) (i : Int) : Except PyErr Value :=
  let j : Int := if i < 0 then i + xs.length else i
  if j < 0 then .error .indexError
  else
    match xs.get? j.toNat with
    | some v => .ok v
    | none => .error .indexError

/--
The body of the args loop of CallArgsInfo.init (lines 161-170):
given N = len(args) and the defaults tuple, compute the recorded default
of the ordinary parameter at index i.  The source sets
argsDefaults_startsAt = N - len(argsDefaults) - 1 and stores
argsDefaults[i - argsDefaults_startsAt - 1] for i not below that bound,
NO_DEFAULT otherwise.
-/
def argEntry (N : Nat) (defaults : Option (List Value)) (i : Nat) (v : String) :
    Except PyErr (String × Value) :=
  match defaults with
  | none => .ok (v, Value.noDefault)
  | some ds =>
      if (i : Int) < (N : Int) - (ds.length : Int) - 1 then .ok (v, Value.noDefault)
      else
        match pyGet ds ((i : Int) - ((N : Int) - (ds.length : Int) - 1) - 1) with
        | .ok d => .ok (v, d)
        | .error e => .error e

/-- Iterate argEntry over the remaining parameter names, tracking the index. -/
def processArgsAux (N : Nat) (defaults : Option (List Value)) :
    Nat → List String → Except PyErr (List (String × Value))
  | _, [] => .ok []
  | i, v :: rest =>
      match argEntry N defaults i v with
      | .error e => .error e
      | .ok e =>
          match processArgsAux N defaults (i + 1) rest with
          | .error e2 => .error e2
          | .ok r => .ok (e :: r)

/--
The allArgs dictionary built by the loop of lines 163-170: every ordinary
parameter in order, skipping index 0 when firstArgIdx > 0 (the implicit
receiver), each mapped to its computed default.
-/
def processArgs (args : List String) (defaults : Option (List Value))
    (firstArgIdx : Nat) : Except PyErr (List (String × Value)) :=
  if firstArgIdx > 0 then
    match args with
    | [] => .ok []
    | _ :: rest => processArgsAux args.length defaults 1 rest
  else
    processArgsAux args.length defaults 0 args

/-- Dictionary lookup used for kwargsDefaults. -/
def lookupKey (m : List (String × Value)) (k : String) : Option Value :=
  (m.find? (fun p => p.1 == k)).map Prod.snd

/--
One entry of the allKwargs dictionary (lines 173-177): a keyword-only
parameter is mapped to its declared default when the kwargsDefaults
mapping has one, NO_DEFAULT otherwise.
-/
def kwEntry (kwonlydefaults : Option (List (String × Value))) (v : String) :
    String × Value :=
  match kwonlydefaults with
  | none => (v, Value.noDefault)
  | some m =>
      match lookupKey m v with
      | none => (v, Value.noDefault)
      | some d => (v, d)

/--
The allKwargs dictionary of lines 172-177: every keyword-only parameter in
order with its recorded default.
-/
def processKwargs (kwonlyargs : List String)
    (kwonlydefaults : Option (List (String × Value))) : List (String × Value) :=
  kwonlyargs.map (kwEntry kwonlydefaults)

/--
Python `del d[k]` on an association list with unique keys: remove the
first entry with the given key (no error handling here; callers check
membership first, mirroring the source).
-/
def delKey : List (String × Value) → String → List (String × Value)
  | [], _ => []
  | (k, v) :: rest, name => if k == name then rest else (k, v) :: delKey rest name

/--
One iteration of the ignoreArgs loop (lines 184-188): delete the name from
allArgs if present there, else from allKwargs if present there, else do
nothing.
-/
def ignoreStep (p : List (String × Value) × List (String × Value)) (name : String) :
    List (String × Value) × List (String × Value) :=
  if p.1.any (fun q => q.1 == name) then (delKey p.1 name, p.2)
  else if p.2.any (fun q => q.1 == name) then (p.1, delKey p.2 name)
  else p

/--
The whole `if ignoreArgs:` deletion loop (lines 183-188).  An empty (or
None) ignoreArgs skips the block; the folds over an empty list coincide
with that behaviour.
-/
def applyIgnore (allArgs allKwargs : List (String × Value)) (ignoreArgs : List String) :
    List (String × Value) × List (String × Value) :=
  if ignoreArgs.isEmpty then (allArgs, allKwargs)
  else ignoreArgs.foldl ignoreStep (allArgs, allKwargs)

/--
Python membership `name in ignoreArgs` for an optional variadic name
(lines 190-193): None is never an element of a list of strings.
-/
def optMem (o : Option String) (l : List String) : Bool :=
  match o with
  | some n => l.contains n
  | none => false

/--
Final value of an accepts-extra flag: initialised from presence of the
variadic name (lines 179-180) and cleared inside the `if ignoreArgs:`
block when the variadic name occurs in ignoreArgs (lines 190-193).
-/
def acceptsFlag (varName : Option String) (initFlag : Bool)
    (ignoreArgs : List String) : Bool :=
  if ignoreArgs.isEmpty then initFlag
  else if optMem varName ignoreArgs then false else initFlag

/--
CallArgsInfo.setupAutoTopic (lines 233-242): scan the combined dictionary
(allArgs then allKwargs; the append models the dict merge since parameter
names are distinct) for the first value equal to AUTO_TOPIC; when found,
record the name and execute `del self.allArgs[variable]`, which raises
KeyError when the name is not a key of allArgs.
-/
def setupAutoTopic (allArgs allKwargs : List (String × Value)) :
    Except PyErr (List (String × Value) × Option String) :=
  match (allArgs ++ allKwargs).find? (fun p => p.2 == Value.autoTopic) with
  | none => .ok (allArgs, none)
  | some p =>
      if allArgs.any (fun q => q.1 == p.1) then .ok (delKey allArgs p.1, some p.1)
      else .error (.keyError p.1)

/-- The state of a constructed CallArgsInfo object. -/
structure CallArgsInfo where
  allArgs : List (String × Value)
  allKwargs : List (String × Value)
  acceptsAllKwargs : Bool
  acceptsAllUnnamedArgs : Bool
  allParams : List String
  numRequired : Nat
  autoTopicArgName : Option String
deriving DecidableEq, Repr

/--
CallArgsInfo.init (lines 127-200): build allArgs and allKwargs, set the
accepts flags, snapshot allParams as the keys of both dictionaries
(line 181, before the ignoreArgs block), apply the ignoreArgs deletions,
count numRequired (line 195, before setupAutoTopic), then run
setupAutoTopic.  The whole construction is fallible because setupAutoTopic
can raise KeyError and the defaults indexing can raise IndexError.
-/
def mkCallArgsInfo (spec : FullArgSpec) (firstArgIdx : Nat)
    (ignoreArgs : List String) : Except PyErr CallArgsInfo :=
  match processArgs spec.args spec.defaults firstArgIdx with
  | .error e => .error e
  | .ok allArgs0 =>
      let allKwargs0 := processKwargs spec.kwonlyargs spec.kwonlydefaults
      let allParams := allArgs0.map Prod.fst ++ allKwargs0.map Prod.fst
      let pair := applyIgnore allArgs0 allKwargs0 ignoreArgs
      let numRequired :=
        ((pair.1.map Prod.snd) ++ (pair.2.map Prod.snd)).countP
          (fun v => v == Value.noDefault)
      match setupAutoTopic pair.1 pair.2 with
      | .error e => .error e
      | .ok result =>
          .ok { allArgs := result.1
                allKwargs := pair.2
                acceptsAllKwargs := acceptsFlag spec.varkw spec.varkw.isSome ignoreArgs
                acceptsAllUnnamedArgs :=
                  acceptsFlag spec.varargs spec.varargs.isSome ignoreArgs
                allParams := allParams
                numRequired := numRequired
                autoTopicArgName := result.2 }

/-- CallArgsInfo.getAllArgs (lines 202-203). -/
def CallArgsInfo.getAllArgs (c : CallArgsInfo) : List String :=
  c.allParams

/-- CallArgsInfo.getOptionalArgs (lines 205-206). -/
def CallArgsInfo.getOptionalArgs (c : CallArgsInfo) : List String :=
  ((c.allArgs ++ c.allKwargs).filter (fun p => !(p.2 == Value.noDefault))).map Prod.fst

/-- CallArgsInfo.getRequiredArgs (lines 208-213). -/
def CallArgsInfo.getRequiredArgs (c : CallArgsInfo) : List String :=
  ((c.allArgs ++ c.allKwargs).filter (fun p => p.2 == Value.noDefault)).map Prod.fst

/--
The callable shapes distinguished by getRawFunction and getID.  Each
carries the data those functions read: for a free function its name,
module attribute and argspec; for a bound method the class name and module
attribute of the bound receiver, the function name and the argspec of the
underlying function (which still lists the receiver first); for a callable
object its class name, module attribute and the argspec of its call
operator (receiver first); a plain object has no call operator at all.
A module attribute of `none` models absence of the attribute.
-/
inductive PyCallable where
  | function (name : String) (module : Option String) (spec : FullArgSpec)
  | boundMethod (selfClassName : String) (selfModule : Option String)
      (funcName : String) (spec : FullArgSpec)
  | callableObject (className : String) (module : Option String) (spec : FullArgSpec)
  | plainObject (className : String) (module : Option String)
deriving DecidableEq, Repr

/-- getModule (lines 36-47): the module attribute, or the main placeholder. -/
def getModule (moduleAttr : Option String) : String :=
  match moduleAttr with
  | some m => m
  | none => "__main__"

/--
getID (lines 50-67): name and module of a callable.  A bound method yields
ClassOfReceiver.functionName with the module of the receiver; a function
yields its own name and module; anything else yields its class name and
module.
-/
def getID (c : PyCallable) : String × String :=
  match c with
  | .boundMethod cls m fn _ => (cls ++ "." ++ fn, getModule m)
  | .function n m _ => (n, getModule m)
  | .callableObject cls m _ => (cls, getModule m)
  | .plainObject cls m => (cls, getModule m)

/--
getRawFunction (lines 70-96): a function maps to itself with offset 0; a
bound method maps to itself with offset 1 (in Python 3 a bound method
always has a non-None receiver); a callable object maps to its call
operator with offset 1; anything else raises
ValueError with message `type "T" not supported`.
-/
def getRawFunction (c : PyCallable) : Except String (FullArgSpec × Nat) :=
  match c with
  | .function _ _ spec => .ok (spec, 0)
  | .boundMethod _ _ _ spec => .ok (spec, 1)
  | .callableObject _ _ spec => .ok (spec, 1)
  | .plainObject cls _ => .error ("type \"" ++ cls ++ "\" not supported")

/--
The message stored by ListenerMismatchError.init (lines 108-115):
`Listener "id" (from module "module") inadequate: explanation`, where id
and module come from getID of the listener.  str of the error returns this
message (lines 117-118).
-/
def listenerMismatchMsg (explanation : String) (listener : PyCallable) : String :=
  "Listener \"" ++ (getID listener).1 ++ "\" (from module \"" ++ (getID listener).2
    ++ "\") inadequate: " ++ explanation

/--
What a call to getArgs can produce besides a CallArgsInfo: a
ListenerMismatchError (carrying its rendered message) when classification
fails, or an uncaught Python error escaping from the constructor.
-/
inductive SubscribeError where
  | listenerMismatch (msg : String)
  | uncaught (e : PyErr)
deriving DecidableEq, Repr

/--
getArgs (lines 244-260): classify with getRawFunction; on ValueError wrap
the message in a ListenerMismatchError; otherwise construct the
CallArgsInfo (whose own errors propagate unwrapped).
-/
def getArgs (c : PyCallable) (ignoreArgs : List String) :
    Except SubscribeError CallArgsInfo :=
  match getRawFunction c with
  | .error msg => .error (.listenerMismatch (listenerMismatchMsg msg c))
  | .ok (spec, firstArgIdx) =>
      match mkCallArgsInfo spec firstArgIdx ignoreArgs with
      | .ok info => .ok info
      | .error e => .error (.uncaught e)

/-- The argspec of the free function f(a, b=1, *, c, d=2). -/
def specFreeFn : FullArgSpec :=
  ⟨["a", "b"], none, none, some [.other 1], ["c", "d"], some [("d", .other 2)]⟩

/-- The argspec of the call operator of a functor, f(self, x, y=AUTO_TOPIC). -/
def specFunctorAuto : FullArgSpec :=
  ⟨["self", "x", "y"], none, none, some [.autoTopic], [], none⟩

/-- The argspec of the free function f(a, b). -/
def specTwoArgs : FullArgSpec :=
  ⟨["a", "b"], none, none, none, [], none⟩

/-- The argspec of the free function f(x, *, y=AUTO_TOPIC). -/
def specKwOnlyAuto : FullArgSpec :=
  ⟨["x"], none, none, none, ["y"], some [("y", .autoTopic)]⟩

/--
Claim C1: for a free function f(a, b=1, *, c, d=2) with empty exclusion
list, the spec expects requiredParamNames = (a, c) and
optionalParamNames = (b, d).  The code instead starts the defaults one
parameter too early (argsDefaults_startsAt = N - D - 1, line 162) and,
through Python negative indexing, gives the parameter a the last default,
so the descriptor records requiredParamNames = (c) and
optionalParamNames = (a, b, d).  This theorem evaluates the embedded code
at that input, exhibiting the divergence.
-/
theorem c1_defaults_misaligned_eval :
    (mkCallArgsInfo specFreeFn 0 []).map
        (fun i => (i.getRequiredArgs, i.getOptionalArgs, i.numRequired)) =
      .ok (["c"], ["a", "b", "d"], 1) := by
  rfl

/--
Claim C2: for a functor whose call operator is f(self, x, y=AUTO_TOPIC),
the spec expects autoTopicParamName = y, absent from the required,
optional and all-parameter sets.  The code, because of the defaults
misalignment of line 162, also assigns AUTO_TOPIC to x, and setupAutoTopic
takes the first marker found, so autoTopicArgName = x, while y stays in
the optional set with the marker as its default and both x and y remain in
getAllArgs.  This theorem evaluates the embedded code at that input.
-/
theorem c2_autotopic_eval :
    (mkCallArgsInfo specFunctorAuto 1 []).map
        (fun i => (i.autoTopicArgName, i.getOptionalArgs, i.getAllArgs, i.getRequiredArgs)) =
      .ok (some ("x"), ["y"], ["x", "y"], []) := by
  rfl

/--
Claim C3: the spec expects allParamNames built with exclusions S to differ
from the no-exclusion allParamNames exactly by S ∩ allParamNames.  The
code snapshots allParams (line 181) before the ignoreArgs deletions, so
getAllArgs is unchanged by exclusions: for f(a, b) with S = [a], both
descriptors report getAllArgs = (a, b), the difference is empty rather
than (a), even though the exclusion did reach getRequiredArgs.
-/
theorem c3_allparams_exclusion_eval :
    (mkCallArgsInfo specTwoArgs 0 ["a"]).map
        (fun i => (i.getAllArgs, i.getRequiredArgs)) = .ok (["a", "b"], ["b"]) ∧
    (mkCallArgsInfo specTwoArgs 0 []).map
        (fun i => (i.getAllArgs, i.getRequiredArgs)) = .ok (["a", "b"], ["a", "b"]) := by
  exact ⟨rfl, rfl⟩

/--
Claim C4: the spec says extraction never fails for a syntactically valid
signature, including a keyword-only parameter whose default is the
AUTO_TOPIC marker.  The code executes `del self.allArgs[variable]`
(line 241) even when the marker parameter lives in allKwargs, so for
f(x, *, y=AUTO_TOPIC) construction raises KeyError instead of producing a
descriptor.
-/
theorem c4_kwonly_autotopic_keyerror :
    mkCallArgsInfo specKwOnlyAuto 0 [] = .error (.keyError ("y")) := by
  rfl

/--
Claim C6: a value that is not a function, not a bound method and has no
call operator makes classification fail with a ListenerMismatchError whose
rendered message contains the type name of the value, and no descriptor is
produced.
-/
theorem c6_unsupported_type_mismatch_error (cls : String) (m : Option String)
    (ig : List String) :
    ∃ s t : String,
      getArgs (.plainObject cls m) ig = .error (.listenerMismatch (s ++ cls ++ t)) := by
  refine ⟨"Listener \"", "\" (from module \"" ++ getModule m
      ++ "\") inadequate: " ++ ("type \"" ++ (cls ++ "\" not supported")), ?_⟩
  simp [getArgs, getRawFunction, listenerMismatchMsg, getID, String.append_assoc]

/--
Claim C9: the rendered ListenerMismatchError message is exactly
`Listener "<identifier>" (from module "<module>") inadequate:
<explanation>`, and the module component falls back to the main
placeholder when the offending object has no module attribute.  Stated
end to end through getArgs for an unclassifiable object, once with a
module attribute and once without.
-/
theorem c9_mismatch_render (cls mod : String) (ig : List String) :
    getArgs (.plainObject cls (some mod)) ig =
      .error (.listenerMismatch ("Listener \"" ++ cls ++ "\" (from module \""
        ++ mod ++ "\") inadequate: " ++ ("type \"" ++ cls ++ "\" not supported"))) ∧
    getArgs (.plainObject cls none) ig =
      .error (.listenerMismatch ("Listener \"" ++ cls ++ "\" (from module \""
        ++ "__main__" ++ "\") inadequate: " ++ ("type \"" ++ cls ++ "\" not supported"))) := by
  exact ⟨rfl, rfl⟩


/-- An argEntry result keeps the parameter name as its key. -/
theorem argEntry_fst (N : Nat) (d : Option (List Value)) (i : Nat) (v : String)
    (e : String × Value) (h : argEntry N d i v = .ok e) : e.1 = v := by
  unfold argEntry at h
  split at h
  · exact congrArg Prod.fst (Except.ok.inj h).symm
  · split at h
    · exact congrArg Prod.fst (Except.ok.inj h).symm
    · split at h
      · exact congrArg Prod.fst (Except.ok.inj h).symm
      · simp at h

/-- The keys of the dictionary built by processArgsAux are the names fed to it. -/
theorem processArgsAux_map_fst (N : Nat) (d : Option (List Value)) (i : Nat)
    (xs : List String) (l : List (String × Value))
    (h : processArgsAux N d i xs = .ok l) : l.map Prod.fst = xs := by
  induction xs generalizing i l with
  | nil =>
      unfold processArgsAux at h
      obtain rfl := (Except.ok.inj h).symm
      rfl
  | cons v rest ih =>
      unfold processArgsAux at h
      cases hae : argEntry N d i v with
      | error e => rw [hae] at h; simp at h
      | ok e =>
          rw [hae] at h
          cases hrec : processArgsAux N d (i + 1) rest with
          | error e2 => rw [hrec] at h; simp at h
          | ok r =>
              rw [hrec] at h
              obtain rfl := (Except.ok.inj h).symm
              simp [argEntry_fst N d i v e hae, ih (i + 1) r hrec]

/--
The keys of allArgs are the ordinary parameter names, minus the first one
when the receiver offset is positive.
-/
theorem processArgs_map_fst (args : List String) (d : Option (List Value)) (off : Nat)
    (l : List (String × Value)) (h : processArgs args d off = .ok l) :
    l.map Prod.fst = if off > 0 then args.drop 1 else args := by
  unfold processArgs at h
  by_cases hoff : off > 0
  · rw [if_pos hoff] at h
    rw [if_pos hoff]
    cases args with
    | nil =>
        obtain rfl := (Except.ok.inj h).symm
        rfl
    | cons x rest => exact processArgsAux_map_fst _ _ _ _ _ h
  · rw [if_neg hoff] at h
    rw [if_neg hoff]
    exact processArgsAux_map_fst _ _ _ _ _ h

/-- A kwEntry keeps the parameter name as its key. -/
theorem kwEntry_fst (kd : Option (List (String × Value))) (v : String) :
    (kwEntry kd v).1 = v := by
  cases kd with
  | none => rfl
  | some m =>
      cases hl : lookupKey m v with
      | none => simp [kwEntry, hl]
      | some d => simp [kwEntry, hl]

/-- The keys of allKwargs are exactly the keyword-only parameter names. -/
theorem processKwargs_map_fst (kw : List String)
    (kd : Option (List (String × Value))) :
    (processKwargs kw kd).map Prod.fst = kw := by
  induction kw with
  | nil => rfl
  | cons v rest ih =>
      show (kwEntry kd v).1 :: (processKwargs rest kd).map Prod.fst = v :: rest
      rw [kwEntry_fst, ih]

/-- Deleting a key from a dictionary yields a sublist of it. -/
theorem delKey_sublist (l : List (String × Value)) (k : String) :
    List.Sublist (delKey l k) l := by
  induction l with
  | nil => exact List.Sublist.refl _
  | cons hd tl ih =>
      obtain ⟨k', v'⟩ := hd
      unfold delKey
      split
      · exact List.sublist_cons_self _ _
      · exact ih.cons₂ _

/-- One ignoreArgs iteration shrinks (or keeps) each dictionary. -/
theorem ignoreStep_sublist (p : List (String × Value) × List (String × Value))
    (n : String) :
    List.Sublist (ignoreStep p n).1 p.1 ∧ List.Sublist (ignoreStep p n).2 p.2 := by
  unfold ignoreStep
  split
  · exact ⟨delKey_sublist _ _, List.Sublist.refl _⟩
  · split
    · exact ⟨List.Sublist.refl _, delKey_sublist _ _⟩
    · exact ⟨List.Sublist.refl _, List.Sublist.refl _⟩

/-- The whole ignoreArgs fold shrinks (or keeps) each dictionary. -/
theorem foldl_ignoreStep_sublist (ig : List String) :
    ∀ p : List (String × Value) × List (String × Value),
      List.Sublist (ig.foldl ignoreStep p).1 p.1 ∧
        List.Sublist (ig.foldl ignoreStep p).2 p.2 := by
  induction ig with
  | nil => intro p; exact ⟨List.Sublist.refl _, List.Sublist.refl _⟩
  | cons n rest ih =>
      intro p
      have h1 := ignoreStep_sublist p n
      have h2 := ih (ignoreStep p n)
      simp only [List.foldl_cons]
      exact ⟨h2.1.trans h1.1, h2.2.trans h1.2⟩

/-- applyIgnore shrinks (or keeps) each dictionary. -/
theorem applyIgnore_sublist (a k : List (String × Value)) (ig : List String) :
    List.Sublist (applyIgnore a k ig).1 a ∧ List.Sublist (applyIgnore a k ig).2 k := by
  unfold applyIgnore
  split
  · exact ⟨List.Sublist.refl _, List.Sublist.refl _⟩
  · exact foldl_ignoreStep_sublist ig (a, k)

/-- A successful setupAutoTopic shrinks (or keeps) allArgs. -/
theorem setupAutoTopic_ok_sublist (a k : List (String × Value))
    (r : List (String × Value) × Option String)
    (h : setupAutoTopic a k = .ok r) : List.Sublist r.1 a := by
  unfold setupAutoTopic at h
  split at h
  · obtain rfl := (Except.ok.inj h).symm
    exact List.Sublist.refl _
  · split at h
    · obtain rfl := (Except.ok.inj h).symm
      exact delKey_sublist _ _
    · simp at h

/--
On a dictionary with distinct keys, deleting the key of a member entry is
a permutation away from removing that entry from the front.
-/
theorem delKey_perm (l : List (String × Value)) (k : String) (v : Value)
    (hnd : (l.map Prod.fst).Nodup) (hmem : (k, v) ∈ l) :
    l.Perm ((k, v) :: delKey l k) := by
  induction l with
  | nil => cases hmem
  | cons hd tl ih =>
      obtain ⟨k', v'⟩ := hd
      simp only [List.map_cons, List.nodup_cons] at hnd
      rcases List.mem_cons.mp hmem with heq | hmem2
      · injection heq.symm with h1 h2
        subst h1
        subst h2
        unfold delKey
        rw [if_pos (by simp)]
      · have hk : (k' == k) = false := by
          rw [beq_eq_false_iff_ne]
          intro he
          subst he
          exact hnd.1 (List.mem_map_of_mem Prod.fst hmem2)
        unfold delKey
        rw [if_neg (by simp [hk])]
        exact ((ih hnd.2 hmem2).cons _).trans (List.Perm.swap _ _ _)

/--
Inversion of a successful CallArgsInfo construction: recover the allArgs
dictionary, the setupAutoTopic result and the exact field values of the
produced descriptor.
-/
theorem mkCallArgsInfo_ok_inv (spec : FullArgSpec) (firstArgIdx : Nat)
    (ignoreArgs : List String) (info : CallArgsInfo)
    (hok : mkCallArgsInfo spec firstArgIdx ignoreArgs = .ok info) :
    ∃ (allArgs0 : List (String × Value))
      (result : List (String × Value) × Option String),
      processArgs spec.args spec.defaults firstArgIdx = .ok allArgs0 ∧
      setupAutoTopic
          (applyIgnore allArgs0
            (processKwargs spec.kwonlyargs spec.kwonlydefaults) ignoreArgs).1
          (applyIgnore allArgs0
            (processKwargs spec.kwonlyargs spec.kwonlydefaults) ignoreArgs).2
        = .ok result ∧
      info =
        { allArgs := result.1
          allKwargs := (applyIgnore allArgs0
            (processKwargs spec.kwonlyargs spec.kwonlydefaults) ignoreArgs).2
          acceptsAllKwargs := acceptsFlag spec.varkw spec.varkw.isSome ignoreArgs
          acceptsAllUnnamedArgs :=
            acceptsFlag spec.varargs spec.varargs.isSome ignoreArgs
          allParams := allArgs0.map Prod.fst
            ++ (processKwargs spec.kwonlyargs spec.kwonlydefaults).map Prod.fst
          numRequired :=
            (((applyIgnore allArgs0
                (processKwargs spec.kwonlyargs spec.kwonlydefaults) ignoreArgs).1.map
                  Prod.snd)
              ++ ((applyIgnore allArgs0
                (processKwargs spec.kwonlyargs spec.kwonlydefaults) ignoreArgs).2.map
                  Prod.snd)).countP (fun v => v == Value.noDefault)
          autoTopicArgName := result.2 } := by
  unfold mkCallArgsInfo at hok
  cases hpa : processArgs spec.args spec.defaults firstArgIdx with
  | error e => rw [hpa] at hok; simp at hok
  | ok allArgs0 =>
      rw [hpa] at hok
      simp only [] at hok
      cases hst : setupAutoTopic
          (applyIgnore allArgs0
            (processKwargs spec.kwonlyargs spec.kwonlydefaults) ignoreArgs).1
          (applyIgnore allArgs0
            (processKwargs spec.kwonlyargs spec.kwonlydefaults) ignoreArgs).2 with
      | error e => rw [hst] at hok; simp at hok
      | ok result =>
          rw [hst] at hok
          exact ⟨allArgs0, result, rfl, hst, (Except.ok.inj hok).symm⟩

/-- Every required-argument name is a key of allArgs or of allKwargs. -/
theorem getRequiredArgs_mem (c : CallArgsInfo) (x : String)
    (hx : x ∈ c.getRequiredArgs) :
    x ∈ c.allArgs.map Prod.fst ∨ x ∈ c.allKwargs.map Prod.fst := by
  unfold CallArgsInfo.getRequiredArgs at hx
  obtain ⟨q, hq, rfl⟩ := List.mem_map.mp hx
  rcases List.mem_append.mp (List.mem_of_mem_filter hq) with h | h
  · exact Or.inl (List.mem_map_of_mem Prod.fst h)
  · exact Or.inr (List.mem_map_of_mem Prod.fst h)

/-- Every optional-argument name is a key of allArgs or of allKwargs. -/
theorem getOptionalArgs_mem (c : CallArgsInfo) (x : String)
    (hx : x ∈ c.getOptionalArgs) :
    x ∈ c.allArgs.map Prod.fst ∨ x ∈ c.allKwargs.map Prod.fst := by
  unfold CallArgsInfo.getOptionalArgs at hx
  obtain ⟨q, hq, rfl⟩ := List.mem_map.mp hx
  rcases List.mem_append.mp (List.mem_of_mem_filter hq) with h | h
  · exact Or.inl (List.mem_map_of_mem Prod.fst h)
  · exact Or.inr (List.mem_map_of_mem Prod.fst h)

/--
Claim C10: getAllArgs returns all non-receiver parameter names in
declaration order, positional-or-keyword names first and then keyword-only
names, whatever exclusion list was supplied and whether or not an
auto-topic parameter was identified: the right-hand side depends only on
the argspec and the receiver offset (allParams is snapshot at line 181,
before the ignoreArgs block and before setupAutoTopic).
-/
theorem c10_allparams_frame (spec : FullArgSpec) (offset : Nat)
    (ignoreArgs : List String) (info : CallArgsInfo)
    (hok : mkCallArgsInfo spec offset ignoreArgs = .ok info) :
    info.getAllArgs = (if offset > 0 then spec.args.drop 1 else spec.args)
      ++ spec.kwonlyargs := by
  obtain ⟨a0, r, h1, h2, h3⟩ := mkCallArgsInfo_ok_inv spec offset ignoreArgs info hok
  subst h3
  show a0.map Prod.fst ++ (processKwargs spec.kwonlyargs spec.kwonlydefaults).map Prod.fst = _
  rw [processArgs_map_fst spec.args spec.defaults offset a0 h1, processKwargs_map_fst]

/--
Claim C5: the classifier maps a free function to (the callable, offset 0),
a bound method to (the callable, offset 1) and a callable object to (its
call operator, offset 1); consequently, when the argspec lists the
receiver first, the receiver name appears in none of getAllArgs,
getRequiredArgs, getOptionalArgs of a descriptor built with offset 1.
-/
theorem c5_classifier_offsets (cls fn : String) (m : Option String)
    (spec : FullArgSpec) (recv : String) (rest : List String)
    (ignoreArgs : List String) (info : CallArgsInfo)
    (hargs : spec.args = recv :: rest)
    (hrest : recv ∉ rest) (hkw : recv ∉ spec.kwonlyargs)
    (hok : mkCallArgsInfo spec 1 ignoreArgs = .ok info) :
    getRawFunction (.function fn m spec) = .ok (spec, 0) ∧
    getRawFunction (.boundMethod cls m fn spec) = .ok (spec, 1) ∧
    getRawFunction (.callableObject cls m spec) = .ok (spec, 1) ∧
    recv ∉ info.getAllArgs ∧ recv ∉ info.getRequiredArgs ∧
      recv ∉ info.getOptionalArgs := by
  obtain ⟨a0, r, h1, h2, h3⟩ := mkCallArgsInfo_ok_inv spec 1 ignoreArgs info hok
  have hA : a0.map Prod.fst = rest := by
    rw [processArgs_map_fst spec.args spec.defaults 1 a0 h1]
    simp [hargs]
  have hK : (processKwargs spec.kwonlyargs spec.kwonlydefaults).map Prod.fst
      = spec.kwonlyargs := processKwargs_map_fst _ _
  have hsub := applyIgnore_sublist a0
    (processKwargs spec.kwonlyargs spec.kwonlydefaults) ignoreArgs
  have hsub2 := setupAutoTopic_ok_sublist _ _ r h2
  have hmemA : ∀ x, x ∈ info.allArgs.map Prod.fst → x ∈ rest := by
    intro x hx
    rw [← hA]
    have : List.Sublist info.allArgs a0 := by
      rw [h3]
      exact hsub2.trans hsub.1
    exact (this.map Prod.fst).subset hx
  have hmemK : ∀ x, x ∈ info.allKwargs.map Prod.fst → x ∈ spec.kwonlyargs := by
    intro x hx
    rw [← hK]
    have : List.Sublist info.allKwargs
        (processKwargs spec.kwonlyargs spec.kwonlydefaults) := by
      rw [h3]
      exact hsub.2
    exact (this.map Prod.fst).subset hx
  refine ⟨rfl, rfl, rfl, ?_, ?_, ?_⟩
  · intro hmem
    rw [h3] at hmem
    have hmem2 : recv ∈ a0.map Prod.fst
        ++ (processKwargs spec.kwonlyargs spec.kwonlydefaults).map Prod.fst := hmem
    rcases List.mem_append.mp hmem2 with h | h
    · exact hrest (hA ▸ h)
    · exact hkw (hK ▸ h)
  · intro hmem
    rcases getRequiredArgs_mem info recv hmem with h | h
    · exact hrest (hmemA recv h)
    · exact hkw (hmemK recv h)
  · intro hmem
    rcases getOptionalArgs_mem info recv hmem with h | h
    · exact hrest (hmemA recv h)
    · exact hkw (hmemK recv h)

/-- Witness for C5 at the bound method C.f(self, a) with no exclusions. -/
theorem c5_classifier_offsets_witness :
    getRawFunction (.function ("f") none ⟨["self", "a"], none, none, none, [], none⟩)
        = .ok (⟨["self", "a"], none, none, none, [], none⟩, 0) ∧
    getRawFunction
        (.boundMethod ("C") none ("f") ⟨["self", "a"], none, none, none, [], none⟩)
        = .ok (⟨["self", "a"], none, none, none, [], none⟩, 1) ∧
    getRawFunction (.callableObject ("C") none ⟨["self", "a"], none, none, none, [], none⟩)
        = .ok (⟨["self", "a"], none, none, none, [], none⟩, 1) ∧
    "self" ∉ CallArgsInfo.getAllArgs
        ⟨[("a", Value.noDefault)], [], false, false, ["a"], 1, none⟩ ∧
    "self" ∉ CallArgsInfo.getRequiredArgs
        ⟨[("a", Value.noDefault)], [], false, false, ["a"], 1, none⟩ ∧
    "self" ∉ CallArgsInfo.getOptionalArgs
        ⟨[("a", Value.noDefault)], [], false, false, ["a"], 1, none⟩ :=
  c5_classifier_offsets ("C") ("f") none ⟨["self", "a"], none, none, none, [], none⟩
    ("self") ["a"] [] ⟨[("a", Value.noDefault)], [], false, false, ["a"], 1, none⟩
    rfl (by decide) (by decide) (by rfl)

/-- Witness for C10 at f(a, *, b) with exclusion list [a]. -/
theorem c10_allparams_frame_witness :
    CallArgsInfo.getAllArgs
        ⟨[], [("b", Value.noDefault)], false, false, ["a", "b"], 1, none⟩ =
      (if 0 > 0 then List.drop 1 ["a"] else ["a"]) ++ ["b"] :=
  c10_allparams_frame ⟨["a"], none, none, none, ["b"], none⟩ 0 ["a"]
    ⟨[], [("b", Value.noDefault)], false, false, ["a", "b"], 1, none⟩ (by rfl)

/--
A successful setupAutoTopic leaves the count of NO_DEFAULT entries of
allArgs unchanged, provided allArgs has distinct keys and shares no key
with allKwargs: the deleted entry (when any) carries the AUTO_TOPIC
marker, not a NO_DEFAULT instance.
-/
theorem setupAutoTopic_countP (a k : List (String × Value))
    (r : List (String × Value) × Option String)
    (hnd : (a.map Prod.fst).Nodup)
    (hdisj : ∀ x, x ∈ a.map Prod.fst → x ∈ k.map Prod.fst → False)
    (h : setupAutoTopic a k = .ok r) :
    r.1.countP (fun q => q.2 == Value.noDefault)
      = a.countP (fun q => q.2 == Value.noDefault) := by
  unfold setupAutoTopic at h
  split at h
  · obtain rfl := (Except.ok.inj h).symm
    rfl
  · next p hf =>
      split at h
      · next hany =>
          obtain rfl := (Except.ok.inj h).symm
          have hval : p.2 = Value.autoTopic := by
            have := List.find?_some hf
            simpa using this
          have hmem : p ∈ a ++ k := List.mem_of_find?_eq_some hf
          have hpa : p ∈ a := by
            rcases List.mem_append.mp hmem with hin | hin
            · exact hin
            · exfalso
              obtain ⟨q, hq, hq2⟩ := List.any_eq_true.mp hany
              have hq3 : q.1 = p.1 := by simpa using hq2
              exact hdisj p.1 (hq3 ▸ List.mem_map_of_mem Prod.fst hq)
                (List.mem_map_of_mem Prod.fst hin)
          have hperm : a.Perm ((p.1, p.2) :: delKey a p.1) :=
            delKey_perm a p.1 p.2 hnd hpa
          rw [hperm.countP_eq]
          show (delKey a p.1).countP (fun q => q.2 == Value.noDefault) = _
          rw [List.countP_cons]
          simp [hval]
      · next hany => simp at h

/--
Claim C7: after exclusions are applied, numRequired equals the number of
names returned by getRequiredArgs (and, being a count, is non-negative),
for every descriptor the construction produces, including when a required
name was removed by the exclusion list and when an auto-topic parameter
was identified and removed.  The hypothesis that the declared parameter
names are distinct always holds for a real Python signature.
-/
theorem c7_numRequired_eq_card (spec : FullArgSpec) (offset : Nat)
    (ignoreArgs : List String) (info : CallArgsInfo)
    (hnd : (spec.args ++ spec.kwonlyargs).Nodup)
    (hok : mkCallArgsInfo spec offset ignoreArgs = .ok info) :
    info.numRequired = info.getRequiredArgs.length := by
  obtain ⟨a0, r, h1, h2, h3⟩ := mkCallArgsInfo_ok_inv spec offset ignoreArgs info hok
  have hndargs : spec.args.Nodup := (List.nodup_append.mp hnd).1
  have hndkw : spec.kwonlyargs.Nodup := (List.nodup_append.mp hnd).2.1
  have hdisj0 : ∀ x, x ∈ spec.args → x ∈ spec.kwonlyargs → False := by
    intro x hx hk
    exact (List.nodup_append.mp hnd).2.2 hx hk
  have hA : a0.map Prod.fst = if offset > 0 then spec.args.drop 1 else spec.args :=
    processArgs_map_fst spec.args spec.defaults offset a0 h1
  have hAsub : ∀ x, x ∈ a0.map Prod.fst → x ∈ spec.args := by
    intro x hx
    rw [hA] at hx
    by_cases hoff : offset > 0
    · rw [if_pos hoff] at hx
      exact (List.drop_subset 1 spec.args) hx
    · rw [if_neg hoff] at hx
      exact hx
  have hAnodup : (a0.map Prod.fst).Nodup := by
    rw [hA]
    by_cases hoff : offset > 0
    · rw [if_pos hoff]
      exact hndargs.sublist (List.drop_sublist 1 spec.args)
    · rw [if_neg hoff]
      exact hndargs
  have hsub := applyIgnore_sublist a0
    (processKwargs spec.kwonlyargs spec.kwonlydefaults) ignoreArgs
  have hnd1 : ((applyIgnore a0
      (processKwargs spec.kwonlyargs spec.kwonlydefaults) ignoreArgs).1.map
        Prod.fst).Nodup :=
    hAnodup.sublist (hsub.1.map Prod.fst)
  have hdisj1 : ∀ x,
      x ∈ (applyIgnore a0
        (processKwargs spec.kwonlyargs spec.kwonlydefaults) ignoreArgs).1.map Prod.fst →
      x ∈ (applyIgnore a0
        (processKwargs spec.kwonlyargs spec.kwonlydefaults) ignoreArgs).2.map Prod.fst →
      False := by
    intro x hx hk
    have hx2 : x ∈ spec.args := hAsub x ((hsub.1.map Prod.fst).subset hx)
    have hk2 : x ∈ spec.kwonlyargs := by
      have := (hsub.2.map Prod.fst).subset hk
      rw [processKwargs_map_fst] at this
      exact this
    exact hdisj0 x hx2 hk2
  have hcount := setupAutoTopic_countP _ _ r hnd1 hdisj1 h2
  subst h3
  show (((applyIgnore a0 (processKwargs spec.kwonlyargs spec.kwonlydefaults)
      ignoreArgs).1.map Prod.snd)
    ++ ((applyIgnore a0 (processKwargs spec.kwonlyargs spec.kwonlydefaults)
      ignoreArgs).2.map Prod.snd)).countP (fun v => v == Value.noDefault)
    = (((r.1 ++ (applyIgnore a0 (processKwargs spec.kwonlyargs spec.kwonlydefaults)
      ignoreArgs).2).filter (fun q => q.2 == Value.noDefault)).map Prod.fst).length
  rw [List.length_map, ← List.countP_eq_length_filter, List.countP_append,
    List.countP_append, List.countP_map, List.countP_map]
  have hcomp : ∀ l : List (String × Value),
      l.countP ((fun v => v == Value.noDefault) ∘ Prod.snd)
        = l.countP (fun q => q.2 == Value.noDefault) := by
    intro l
    rfl
  rw [hcomp, hcomp, hcount]

/-- Witness for C7 at f(a, *, b) with exclusion list [b]. -/
theorem c7_numRequired_eq_card_witness :
    CallArgsInfo.numRequired
        ⟨[("a", Value.noDefault)], [], false, false, ["a", "b"], 1, none⟩ =
      (CallArgsInfo.getRequiredArgs
        ⟨[("a", Value.noDefault)], [], false, false, ["a", "b"], 1, none⟩).length :=
  c7_numRequired_eq_card ⟨["a"], none, none, none, ["b"], none⟩ 0 ["b"]
    ⟨[("a", Value.noDefault)], [], false, false, ["a", "b"], 1, none⟩
    (by decide) (by rfl)

/--
An exclusion entry that is a key of neither dictionary leaves the
ignoreArgs deletion loop unchanged when prepended.
-/
theorem applyIgnore_cons_absent (a k : List (String × Value)) (S : List String)
    (name : String)
    (ha : a.any (fun q => q.1 == name) = false)
    (hk : k.any (fun q => q.1 == name) = false) :
    applyIgnore a k (name :: S) = applyIgnore a k S := by
  have hstep : ignoreStep (a, k) name = (a, k) := by
    simp [ignoreStep, ha, hk]
  cases S with
  | nil => simp [applyIgnore, hstep]
  | cons s tl => simp [applyIgnore, List.foldl_cons, hstep]

/--
An exclusion entry different from the variadic name leaves the
accepts-extra flag computation unchanged when prepended.
-/
theorem acceptsFlag_cons (varName : Option String) (init : Bool) (S : List String)
    (name : String) (h : varName ≠ some name) :
    acceptsFlag varName init (name :: S) = acceptsFlag varName init S := by
  cases varName with
  | none => cases S <;> simp [acceptsFlag, optMem]
  | some n =>
      have hn : n ≠ name := by
        intro he
        exact h (by rw [he])
      cases S with
      | nil => simp [acceptsFlag, optMem, hn]
      | cons s tl => simp [acceptsFlag, optMem, List.contains_cons, hn]

/--
Claim C8: an exclusion entry that names neither an existing positional nor
keyword-only parameter (after the receiver skip) nor one of the variadic
catch-all identifiers raises no error and produces a result structurally
equal to the one built without that entry: construction with the entry
prepended is literally the same computation.
-/
theorem c8_ignore_absent_noop (spec : FullArgSpec) (offset : Nat) (S : List String)
    (name : String)
    (h1 : name ∉ (if offset > 0 then spec.args.drop 1 else spec.args))
    (h2 : name ∉ spec.kwonlyargs)
    (h3 : spec.varargs ≠ some name)
    (h4 : spec.varkw ≠ some name) :
    mkCallArgsInfo spec offset (name :: S) = mkCallArgsInfo spec offset S := by
  unfold mkCallArgsInfo
  cases hpa : processArgs spec.args spec.defaults offset with
  | error e => rfl
  | ok a0 =>
      have hA := processArgs_map_fst spec.args spec.defaults offset a0 hpa
      have ha : a0.any (fun q => q.1 == name) = false := by
        rw [List.any_eq_false]
        intro q hq hbeq
        have hx : q.1 = name := by simpa using hbeq
        exact h1 (hA ▸ hx ▸ List.mem_map_of_mem Prod.fst hq)
      have hk : (processKwargs spec.kwonlyargs spec.kwonlydefaults).any
          (fun q => q.1 == name) = false := by
        rw [List.any_eq_false]
        intro q hq hbeq
        have hx : q.1 = name := by simpa using hbeq
        exact h2 (processKwargs_map_fst spec.kwonlyargs spec.kwonlydefaults
          ▸ hx ▸ List.mem_map_of_mem Prod.fst hq)
      simp only [applyIgnore_cons_absent _ _ S name ha hk,
        acceptsFlag_cons spec.varkw spec.varkw.isSome S name h4,
        acceptsFlag_cons spec.varargs spec.varargs.isSome S name h3]

/-- Witness for C8 at f(a) with the absent exclusion entry z. -/
theorem c8_ignore_absent_noop_witness :
    mkCallArgsInfo ⟨["a"], none, none, none, [], none⟩ 0 ("z" :: []) =
      mkCallArgsInfo ⟨["a"], none, none, none, [], none⟩ 0 [] :=
  c8_ignore_absent_noop ⟨["a"], none, none, none, [], none⟩ 0 [] ("z")
    (by decide) (by decide) (by decide) (by decide)
